import Mathlib

/-! uploadBE: authentication and image-upload controllers

A shallow embedding of `src/controllers/authController.js` (with the static
mount of `src/server.js`).  Every handler is a function from the request, the
process environment, the clock readings and the state of the two stores to an
`Outcome`: the error thrown (if any), the response written through `res`, the
store writes and token issuances performed, and the stores afterwards.

External libraries (jsonwebtoken, crypto, multer, mongoose) are not part of the
repository.  The signing and verification of jsonwebtoken, the password hash
and the random bytes are taken as parameters; `jwt.sign` adds the check of the
secret that jsonwebtoken makes before it signs, and multer's `array`
middleware is modelled by `upload.array`, both from their documented behaviour.
-/

namespace UploadBE

/-! ## Data model -/

/-- The object handed to `User.create` by `register` (lines 30-36). -/
structure UserDoc where
  name : String
  email : String
  password : String
  role : String
  verificationToken : String
deriving DecidableEq, Repr

/-- A user as held by the Credential Store. -/
structure UserRecord where
  _id : Nat
  name : String
  email : String
  password : String
  role : String
  verificationToken : String
deriving DecidableEq, Repr

/-- The projection of a user embedded in the session token.  The fields are
those of the `createTokenUser` mock of `src/test/controller.test.js`. -/
structure TokenUser where
  name : String
  userId : Nat
  role : String
deriving DecidableEq, Repr

/-- The object handed to `Image.insertMany` by `uploadImages` (lines 131-136). -/
structure ImageDoc where
  filename : String
  url : String
  size : Nat
  mimetype : String
deriving DecidableEq, Repr

/-- An image record as held by the Image Metadata Store. -/
structure ImageRecord where
  filename : String
  url : String
  size : Nat
  mimetype : String
  createdAt : Nat
deriving DecidableEq, Repr

/-- The two collections behind the controllers. -/
structure World where
  users : List UserRecord
  images : List ImageRecord
deriving DecidableEq, Repr

/-- The errors a handler throws, each carrying a message: the two classes of the
errors module of the repository (`../errors`) that the controller uses, and the
plain `Error` thrown by a library call. -/
inductive CustomError where
  | BadRequestError (message : String)
  | AuthenticationError (message : String)
  | Error (message : String)
deriving DecidableEq, Repr

/-- What the upload middleware hands to its callback as `err`. -/
inductive UploadError where
  | MulterError (code : String) (field : String)
  | Error (message : String)
deriving DecidableEq, Repr

/-- Options of `res.cookie`. -/
structure CookieOptions where
  httpOnly : Bool
  secure : Bool
  expires : Nat
deriving DecidableEq, Repr

/-- One `res.cookie(name, value, options)` call. -/
structure Cookie where
  name : String
  value : String
  options : CookieOptions
deriving DecidableEq, Repr

/-- Options of `res.clearCookie`. -/
structure ClearCookieOptions where
  path : String
  httpOnly : Bool
  sameSite : String
deriving DecidableEq, Repr

/-- A file as it arrives in the multipart body. -/
structure IncomingFile where
  fieldname : String
  originalname : String
  mimetype : String
  size : Nat
deriving DecidableEq, Repr

/-- An entry of `req.files` after the disk storage engine has stored it. -/
structure UploadedFile where
  fieldname : String
  originalname : String
  mimetype : String
  destination : String
  filename : String
  size : Nat
deriving DecidableEq, Repr

/-- The argument of `res.json`. -/
inductive Body where
  | msg (text : String)
  | user (tokenUser : TokenUser)
  | isLoggedIn (flag : Bool)
  | uploadError (err : UploadError)
  | error (text : String)
  | files (files : List UploadedFile) (processingTime : Rat)
  | urls (urls : List String)
deriving DecidableEq, Repr

/-- The response object: the last `res.status` (none when never called), the
`res.json` body, and the cookies set and cleared, in call order. -/
structure Res where
  statusCode : Option Nat
  body : Option Body
  cookies : List Cookie
  cleared : List (String × ClearCookieOptions)
deriving DecidableEq, Repr

/-- The payload signed by `login`: the object with the single key `user`. -/
structure Payload where
  user : TokenUser
deriving DecidableEq, Repr

/-- Store writes and token issuances, in program order.  `jwtSign` records a
`jwt.sign` call that returned a token, with the arguments it was given. -/
inductive Effect where
  | userCreate (doc : UserDoc)
  | imageInsertMany (docs : List ImageDoc)
  | jwtSign (payload : Payload) (secret : Option String) (expiresIn : String)
deriving DecidableEq, Repr

/-- What a handler did. -/
structure Outcome where
  thrown : Option CustomError
  res : Res
  effects : List Effect
  world : World
deriving DecidableEq, Repr

/-- The variables of `process.env` the controller reads; `none` is a variable
that is not set (`undefined`). -/
structure Env where
  JWT_SECRET : Option String
  NODE_ENV : Option String
deriving DecidableEq, Repr

/-- The collaborators that live outside `src/`: the jsonwebtoken library, and the
password hashing, password comparison and token projection of the repository
(`models/User.js`, `utils/createTokenUser.js`).  `jwtSign` is the signing of
jsonwebtoken for a secret that is present: the token, or the message of the
Error it throws.  `jwtVerify` gives the decoded payload, or `none` when the
callback of `jwt.verify` receives an error. -/
structure Deps where
  jwtSign : Payload → String → String → Except String String
  jwtVerify : String → Option String → Option Payload
  hashPassword : String → String
  comparePassword : UserRecord → String → Bool
  createTokenUser : UserRecord → TokenUser

/-- The response before any handler has written to it. -/
def Res.empty : Res := { statusCode := none, body := none, cookies := [], cleared := [] }

/-- Constants of the http-status-codes package used by the controller. -/
def StatusCodes.CREATED : Nat := 201

/-- Constants of the http-status-codes package used by the controller. -/
def StatusCodes.OK : Nat := 200

/-! ## Credential Store -/

/-- Modelled from the spec: `models/User.js` is missing.  `User.findOne` with an
email filter looks the user up by email (section 4.3, register step 1). -/
def User.findOne (users : List UserRecord) (email : String) : Option UserRecord :=
  users.find? (fun u => u.email == email)

/-- Modelled from the spec: `models/User.js` is missing.  `User.countDocuments`
with the empty filter counts the existing users (section 4.3, register step 2). -/
def User.countDocuments (users : List UserRecord) : Nat := users.length

/-- Modelled from the spec: `models/User.js` is missing.  `User.create` persists
one new record holding the hashed password (section 4.3, register steps 4-5);
the store assigns the identifier. -/
def User.create (hashPassword : String → String) (users : List UserRecord) (doc : UserDoc) :
    List UserRecord × UserRecord :=
  let user : UserRecord :=
    { _id := users.length, name := doc.name, email := doc.email,
      password := hashPassword doc.password, role := doc.role,
      verificationToken := doc.verificationToken }
  (users ++ [user], user)

/-! ## register and login -/

/-- The body of a register request. -/
structure RegisterBody where
  email : String
  name : String
  password : String
deriving DecidableEq, Repr

/-- The body of a login request. -/
structure LoginBody where
  email : String
  password : String
deriving DecidableEq, Repr

/-- Embeds `register` (lines 16-41).  `randomHex` is the value of
`crypto.randomBytes(40).toString("hex")` drawn by this call. -/
def register (deps : Deps) (w : World) (body : RegisterBody) (randomHex : String) : Outcome :=
  match User.findOne w.users body.email with
  | some _ =>
    { thrown := some (CustomError.BadRequestError "Email already exists"),
      res := Res.empty, effects := [], world := w }
  | none =>
    let isFirstAccount := User.countDocuments w.users == 0
    let role := if isFirstAccount then "admin" else "user"
    let verificationToken := randomHex
    let doc : UserDoc :=
      { name := body.name, email := body.email, password := body.password,
        role := role, verificationToken := verificationToken }
    let created := User.create deps.hashPassword w.users doc
    { thrown := none,
      res := { Res.empty with statusCode := some StatusCodes.CREATED,
                              body := some (Body.msg "Success!") },
      effects := [Effect.userCreate doc],
      world := { w with users := created.1 } }

/-- The call `jwt.sign(payload, secretOrPrivateKey, { expiresIn })` of
jsonwebtoken: a secret that is missing (`undefined`) or empty makes it throw
the Error "secretOrPrivateKey must have a value" before anything is signed;
otherwise the library signs, or throws its own Error.  The result is the
token, or the message of the Error thrown. -/
def jwt.sign (deps : Deps) (payload : Payload) (secretOrPrivateKey : Option String)
    (expiresIn : String) : Except String String :=
  match secretOrPrivateKey with
  | none => Except.error "secretOrPrivateKey must have a value"
  | some secret =>
    if secret = "" then Except.error "secretOrPrivateKey must have a value"
    else deps.jwtSign payload secret expiresIn

/-- The constant `oneDay` of `login` (line 67), in milliseconds. -/
def oneDay : Nat := 1000 * 60 * 60 * 24

/-- Embeds `login` (lines 43-75).  `now` is the reading of `Date.now()` on
line 71.  An Error thrown by `jwt.sign` (line 62) leaves `login` before the
cookie is set and before anything is sent. -/
def login (deps : Deps) (env : Env) (w : World) (body : LoginBody) (now : Nat) : Outcome :=
  match User.findOne w.users body.email with
  | none =>
    { thrown := some (CustomError.AuthenticationError "Invalid Credentials"),
      res := Res.empty, effects := [], world := w }
  | some user =>
    let isPasswordCorrect := deps.comparePassword user body.password
    if !isPasswordCorrect then
      { thrown := some (CustomError.AuthenticationError "Invalid Credentials"),
        res := Res.empty, effects := [], world := w }
    else
      let tokenUser := deps.createTokenUser user
      match jwt.sign deps { user := tokenUser } env.JWT_SECRET "30d" with
      | Except.error message =>
        { thrown := some (CustomError.Error message),
          res := Res.empty, effects := [], world := w }
      | Except.ok token =>
        let cookie : Cookie :=
          { name := "token", value := token,
            options := { httpOnly := true,
                         secure := decide (env.NODE_ENV = some "production"),
                         expires := now + oneDay } }
        { thrown := none,
          res := { Res.empty with cookies := [cookie],
                                  statusCode := some StatusCodes.OK,
                                  body := some (Body.user tokenUser) },
          effects := [Effect.jwtSign { user := tokenUser } env.JWT_SECRET "30d"],
          world := w }

/-! ## checkLoginStatus and logout -/

/-- Embeds `checkLoginStatus` (lines 77-89).  `cookies` is `req.cookies`, the
cookies of the request by name; a missing or empty token is falsy. -/
def checkLoginStatus (deps : Deps) (env : Env) (w : World) (cookies : List (String × String)) :
    Outcome :=
  let token := cookies.lookup "accessToken"
  let respond (flag : Bool) : Outcome :=
    { thrown := none, res := { Res.empty with body := some (Body.isLoggedIn flag) },
      effects := [], world := w }
  match token with
  | none => respond false
  | some t =>
    if t = "" then respond false
    else
      match deps.jwtVerify t env.JWT_SECRET with
      | none => respond false
      | some _ => respond true

/-- Embeds `logout` (lines 91-96). -/
def logout (w : World) : Outcome :=
  { thrown := none,
    res := { Res.empty with
               cleared := [("token", { path := "/", httpOnly := true, sameSite := "strict" })],
               statusCode := some StatusCodes.OK,
               body := some (Body.msg "Logged out successfully") },
    effects := [], world := w }

/-! ## Upload pipeline -/

/-- The method `startsWith` of JavaScript strings, at position 0. -/
def startsWith (s p : String) : Bool := p.toList.isPrefixOf s.toList

/-- Embeds `storage.destination` (lines 100-102). -/
def storage.destination : String := "./uploads/"

/-- Embeds `storage.filename` (lines 103-105); `now` is its `Date.now()`. -/
def storage.filename (now : Nat) (file : IncomingFile) : String :=
  toString now ++ "-" ++ file.originalname

/-- Embeds `upload.fileFilter` (lines 110-116): the pair handed to `cb`. -/
def upload.fileFilter (file : IncomingFile) : Option UploadError × Bool :=
  if !startsWith file.mimetype "image/" then
    (some (UploadError.Error "Only image files are allowed!"), false)
  else
    (none, true)

/-- The disk storage engine applied to one accepted file. -/
def storage.handleFile (now : Nat) (file : IncomingFile) : UploadedFile :=
  { fieldname := file.fieldname, originalname := file.originalname,
    mimetype := file.mimetype, destination := storage.destination,
    filename := storage.filename now file, size := file.size }

/-- The file loop of multer's `array` middleware: the files of the multipart
body are taken in order; a file under another field name, or one beyond the
remaining count, aborts with `LIMIT_UNEXPECTED_FILE`; then the file filter is
asked, and its error aborts the whole request; a file the filter lets through
is stored.  `clock i` is the `Date.now()` seen when the file at index `i` is
named. -/
def upload.handleParts (fieldname : String) (clock : Nat → Nat) :
    Nat → Nat → List IncomingFile → Except UploadError (List UploadedFile)
  | _, _, [] => Except.ok []
  | filesLeft, i, file :: rest =>
    if file.fieldname != fieldname || filesLeft == 0 then
      Except.error (UploadError.MulterError "LIMIT_UNEXPECTED_FILE" file.fieldname)
    else
      match upload.fileFilter file with
      | (some err, _) => Except.error err
      | (none, false) => upload.handleParts fieldname clock (filesLeft - 1) (i + 1) rest
      | (none, true) =>
        match upload.handleParts fieldname clock (filesLeft - 1) (i + 1) rest with
        | Except.error err => Except.error err
        | Except.ok stored => Except.ok (storage.handleFile (clock i) file :: stored)

/-- The middleware `upload.array(fieldname, maxCount)`: either the error handed
to the callback or the value of `req.files`. -/
def upload.array (fieldname : String) (maxCount : Nat) (clock : Nat → Nat)
    (parts : List IncomingFile) : Except UploadError (List UploadedFile) :=
  upload.handleParts fieldname clock maxCount 0 parts

/-- Modelled from the spec: `models/Image.js` is missing.  `Image.insertMany` is
one transaction-like batch call (section 4.4, step 4): it persists every record
with the server-assigned creation time, or it fails (`fault`) and persists
none. -/
def Image.insertMany (fault : Bool) (now : Nat) (images : List ImageRecord)
    (docs : List ImageDoc) : Option (List ImageRecord) :=
  if fault then none
  else
    some (images ++ docs.map (fun d =>
      { filename := d.filename, url := d.url, size := d.size, mimetype := d.mimetype,
        createdAt := now }))

/-- The path under which `src/server.js` (line 57) serves the upload directory. -/
def staticMount : String := "/uploads"

/-- An upload request: `req.protocol`, `req.get('host')` and the files of the
multipart body. -/
structure UploadRequest where
  protocol : String
  host : String
  parts : List IncomingFile
deriving DecidableEq, Repr

/-- The clock readings and store behaviour seen by one run of `uploadImages`:
`start` and `finish` are the two `Date.now()` of lines 120 and 145, `fileClock`
the ones of the storage engine, `insertAt` the creation time the store assigns,
`insertFault` whether the batch insert fails. -/
structure UploadRun where
  start : Nat
  fileClock : Nat → Nat
  insertAt : Nat
  insertFault : Bool
  finish : Nat

/-- The record built for one file (lines 131-136). -/
def imageOfFile (req : UploadRequest) (file : UploadedFile) : ImageDoc :=
  { filename := file.filename,
    url := req.protocol ++ "://" ++ req.host ++ "/uploads/" ++ file.filename,
    size := file.size,
    mimetype := file.mimetype }

/-- Embeds `uploadImages` (lines 119-148). -/
def uploadImages (w : World) (req : UploadRequest) (run : UploadRun) : Outcome :=
  match upload.array "images" 10 run.fileClock req.parts with
  | Except.error (UploadError.MulterError code field) =>
    { thrown := none,
      res := { Res.empty with statusCode := some 500,
                              body := some (Body.uploadError (UploadError.MulterError code field)) },
      effects := [], world := w }
  | Except.error err =>
    { thrown := none,
      res := { Res.empty with statusCode := some 500, body := some (Body.uploadError err) },
      effects := [], world := w }
  | Except.ok files =>
    let images := files.map (imageOfFile req)
    match Image.insertMany run.insertFault run.insertAt w.images images with
    | none =>
      { thrown := none,
        res := { Res.empty with statusCode := some 500,
                                body := some (Body.error "Error saving images to the database") },
        effects := [Effect.imageInsertMany images], world := w }
    | some stored =>
      let processingTime : Rat := ((run.finish : Rat) - (run.start : Rat)) / 1000
      { thrown := none,
        res := { Res.empty with statusCode := some 200,
                                body := some (Body.files files processingTime) },
        effects := [Effect.imageInsertMany images], world := { w with images := stored } }

/-! ## Query flow -/

/-- The order of the sort key `{ createdAt: -1 }`: `a` may precede `b` when `a`
was created no earlier than `b`. -/
def createdAtDesc (a b : ImageRecord) : Prop := b.createdAt ≤ a.createdAt

instance : DecidableRel createdAtDesc := fun a b => Nat.decLe b.createdAt a.createdAt

/-- The sort `{ createdAt: -1 }`: descending creation time, records of equal
creation time staying in collection order. -/
def sortCreatedAtDesc (images : List ImageRecord) : List ImageRecord :=
  images.insertionSort createdAtDesc

/-- Modelled from the spec: `models/Image.js` is missing.  The query
`Image.find({}, 'url').sort({ createdAt: -1 })` fetches all records sorted by
creation time descending (section 4.5), or fails (`fault`). -/
def Image.find (fault : Bool) (images : List ImageRecord) : Option (List ImageRecord) :=
  if fault then none else some (sortCreatedAtDesc images)

/-- Embeds `getAllImages` (lines 150-158). -/
def getAllImages (w : World) (findFault : Bool) : Outcome :=
  match Image.find findFault w.images with
  | some images =>
    let urls := images.map (fun image => image.url)
    { thrown := none,
      res := { Res.empty with statusCode := some 200, body := some (Body.urls urls) },
      effects := [], world := w }
  | none =>
    { thrown := none,
      res := { Res.empty with statusCode := some 500,
                              body := some (Body.error "Error retrieving images from the database") },
      effects := [], world := w }

/-! ## Sample data -/

/-- A toy instance of the collaborators, for evaluating the handlers. -/
def sampleDeps : Deps :=
  { jwtSign := fun payload secret expiresIn =>
      Except.ok (payload.user.name ++ "." ++ secret ++ "." ++ expiresIn),
    jwtVerify := fun token secret =>
      match secret with
      | none => none
      | some key =>
        if token = "" ∨ key = "" then none
        else some { user := { name := token, userId := 0, role := "user" } },
    hashPassword := fun plain => "#" ++ plain,
    comparePassword := fun user candidate => user.password == "#" ++ candidate,
    createTokenUser := fun user => { name := user.name, userId := user._id, role := user.role } }

/-- The empty stores. -/
def World.empty : World := { users := [], images := [] }

/-- The emails of the stored users are pairwise distinct: the uniqueness
invariant of the Credential Store. -/
def EmailsUnique (users : List UserRecord) : Prop := (users.map (fun u => u.email)).Nodup

instance (users : List UserRecord) : Decidable (EmailsUnique users) := by
  unfold EmailsUnique; infer_instance

/-- The number of stored users holding `email`. -/
def countEmail (users : List UserRecord) (email : String) : Nat :=
  (users.filter (fun u => u.email == email)).length

/-- A sequence of register calls, each on the store left by the one before:
the outcomes, in call order. -/
def registerAll (deps : Deps) : World → List (RegisterBody × String) → List Outcome
  | _, [] => []
  | w, (body, randomHex) :: rest =>
    let o := register deps w body randomHex
    o :: registerAll deps o.world rest

/-- The outcome of a handler that threw `e` before touching anything. -/
def Outcome.threw (e : CustomError) (w : World) : Outcome :=
  { thrown := some e, res := Res.empty, effects := [], world := w }

/-! ## Lemmas on the Credential Store -/

theorem findOne_none_iff (users : List UserRecord) (email : String) :
    User.findOne users email = none ↔ ∀ u ∈ users, u.email ≠ email := by
  simp [User.findOne, List.find?_eq_none]

theorem findOne_isSome_of_mem (users : List UserRecord) (u : UserRecord) (hu : u ∈ users) :
    ∃ v, User.findOne users u.email = some v := by
  cases h : User.findOne users u.email with
  | some v => exact ⟨v, rfl⟩
  | none => exact absurd rfl ((findOne_none_iff users u.email).1 h u hu)

theorem register_of_found (deps : Deps) (w : World) (body : RegisterBody) (hex : String)
    (u : UserRecord) (h : User.findOne w.users body.email = some u) :
    register deps w body hex =
      Outcome.threw (CustomError.BadRequestError "Email already exists") w := by
  simp [register, h, Outcome.threw]

theorem register_of_absent (deps : Deps) (w : World) (body : RegisterBody) (hex : String)
    (h : User.findOne w.users body.email = none) :
    register deps w body hex =
      { thrown := none,
        res := { statusCode := some 201, body := some (Body.msg "Success!"),
                 cookies := [], cleared := [] },
        effects := [Effect.userCreate
          { name := body.name, email := body.email, password := body.password,
            role := if w.users.length = 0 then "admin" else "user",
            verificationToken := hex }],
        world := { w with users := w.users ++
          [{ _id := w.users.length, name := body.name, email := body.email,
             password := deps.hashPassword body.password,
             role := if w.users.length = 0 then "admin" else "user",
             verificationToken := hex }] } } := by
  simp [register, h, User.create, User.countDocuments, Res.empty, StatusCodes.CREATED]

theorem register_thrown_none_iff (deps : Deps) (w : World) (body : RegisterBody) (hex : String) :
    (register deps w body hex).thrown = none ↔ User.findOne w.users body.email = none := by
  cases h : User.findOne w.users body.email with
  | none => simp [register_of_absent deps w body hex h]
  | some u => simp [register_of_found deps w body hex u h, Outcome.threw]

theorem countEmail_append (l₁ l₂ : List UserRecord) (email : String) :
    countEmail (l₁ ++ l₂) email = countEmail l₁ email + countEmail l₂ email := by
  simp [countEmail]

theorem countEmail_eq_zero_of_absent (users : List UserRecord) (email : String)
    (h : User.findOne users email = none) : countEmail users email = 0 := by
  rw [findOne_none_iff] at h
  simp only [countEmail, List.length_eq_zero, List.filter_eq_nil_iff]
  intro u hu
  simpa using h u hu

theorem countEmail_le_one_of_unique (users : List UserRecord) (email : String)
    (h : EmailsUnique users) : countEmail users email ≤ 1 := by
  induction users with
  | nil => simp [countEmail]
  | cons u rest ih =>
    simp only [EmailsUnique, List.map_cons, List.nodup_cons, List.mem_map, not_exists,
      not_and] at h
    have ih0 := ih h.2
    by_cases hu : u.email = email
    · have : countEmail rest email = 0 := by
        simp only [countEmail, List.length_eq_zero, List.filter_eq_nil_iff]
        intro v hv
        have := h.1 v hv
        simp only [beq_iff_eq]
        intro hve
        exact this (hve.trans hu.symm)
      simp only [countEmail] at this ⊢
      simp [hu, this]
    · simpa [countEmail, hu] using ih0

theorem countEmail_pos_of_found (users : List UserRecord) (email : String) (u : UserRecord)
    (h : User.findOne users email = some u) : 0 < countEmail users email := by
  have hm := List.mem_of_find?_eq_some h
  have hp := List.find?_some h
  simp only [countEmail, List.length_pos]
  intro hnil
  have : u ∈ users.filter (fun v => v.email == email) := List.mem_filter.2 ⟨hm, hp⟩
  rw [hnil] at this
  exact absurd this (List.not_mem_nil u)

/-- Registration keeps the emails of the store pairwise distinct. -/
theorem register_preserves_unique (deps : Deps) (w : World) (body : RegisterBody) (hex : String)
    (h : EmailsUnique w.users) : EmailsUnique (register deps w body hex).world.users := by
  cases hf : User.findOne w.users body.email with
  | some u => rw [register_of_found deps w body hex u hf]; exact h
  | none =>
    rw [register_of_absent deps w body hex hf]
    rw [findOne_none_iff] at hf
    simp only [EmailsUnique, List.map_append, List.map_cons, List.map_nil] at h ⊢
    rw [List.nodup_append]
    refine ⟨h, by simp, ?_⟩
    intro a ha hb
    simp only [List.mem_singleton] at hb
    simp only [List.mem_map] at ha
    obtain ⟨v, hv, hva⟩ := ha
    exact hf v hv (hva.trans hb)

theorem registerAll_roles (deps : Deps) (calls : List (RegisterBody × String)) :
    ∀ (w : World), (∀ o ∈ registerAll deps w calls, o.thrown = none) →
      ∀ (i : Nat) (o : Outcome), (registerAll deps w calls)[i]? = some o →
        ∃ doc, o.effects = [Effect.userCreate doc] ∧
          doc.role = (if w.users.length + i = 0 then "admin" else "user") := by
  induction calls with
  | nil => intro w _ i o h; simp [registerAll] at h
  | cons c rest ih =>
    obtain ⟨body, hex⟩ := c
    intro w hall i o h
    have hok : (register deps w body hex).thrown = none :=
      hall _ (by simp [registerAll])
    have habs := (register_thrown_none_iff deps w body hex).1 hok
    have hreg := register_of_absent deps w body hex habs
    cases i with
    | zero =>
      simp only [registerAll, List.getElem?_cons_zero, Option.some.injEq] at h
      subst h
      rw [hreg]
      exact ⟨_, rfl, by simp⟩
    | succ j =>
      simp only [registerAll, List.getElem?_cons_succ] at h
      have hall2 : ∀ o ∈ registerAll deps (register deps w body hex).world rest,
          o.thrown = none := fun o ho => hall o (by simp [registerAll, ho])
      obtain ⟨doc, hd, hr⟩ := ih _ hall2 j o h
      refine ⟨doc, hd, ?_⟩
      rw [hr, hreg]
      simp

/-! ## Claims on register and login -/

/-- C1: whenever the Credential Store already holds a user with the email of
the request, register throws BadRequestError "Email already exists", performs
no write and sends no response; and of two register calls in sequence for the
same email the second always fails so, leaving the store as the first call left
it, with exactly one user for that email (the emails of the store being
pairwise distinct to begin with). -/
theorem register_same_email_twice (deps : Deps) (w : World) (first second : RegisterBody)
    (hex₁ hex₂ : String) (hsame : second.email = first.email) :
    (∀ u, User.findOne w.users first.email = some u →
      register deps w first hex₁ =
        { thrown := some (CustomError.BadRequestError "Email already exists"),
          res := Res.empty, effects := [], world := w }) ∧
    register deps (register deps w first hex₁).world second hex₂ =
      { thrown := some (CustomError.BadRequestError "Email already exists"),
        res := Res.empty, effects := [], world := (register deps w first hex₁).world } ∧
    (EmailsUnique w.users →
      countEmail (register deps (register deps w first hex₁).world second hex₂).world.users
        first.email = 1) := by
  have hpart1 : ∀ u, User.findOne w.users first.email = some u →
      register deps w first hex₁ =
        { thrown := some (CustomError.BadRequestError "Email already exists"),
          res := Res.empty, effects := [], world := w } :=
    fun u hu => register_of_found deps w first hex₁ u hu
  have hfound : ∃ v, User.findOne (register deps w first hex₁).world.users second.email
      = some v := by
    rw [hsame]
    cases hf : User.findOne w.users first.email with
    | some u => rw [register_of_found deps w first hex₁ u hf]; exact ⟨u, hf⟩
    | none =>
      rw [register_of_absent deps w first hex₁ hf]
      exact findOne_isSome_of_mem _
        { _id := w.users.length, name := first.name, email := first.email,
          password := deps.hashPassword first.password,
          role := if w.users.length = 0 then "admin" else "user",
          verificationToken := hex₁ } (by simp)
  obtain ⟨v, hv⟩ := hfound
  have hsecond := register_of_found deps _ second hex₂ v hv
  refine ⟨hpart1, hsecond, ?_⟩
  intro hunique
  rw [hsecond]
  simp only [Outcome.threw]
  have hle := countEmail_le_one_of_unique _ first.email
    (register_preserves_unique deps w first hex₁ hunique)
  have hpos := countEmail_pos_of_found _ first.email v (hsame ▸ hv)
  omega

/-- Witness of C1 on the empty store. -/
theorem register_same_email_twice_witness :
    EmailsUnique World.empty.users ∧
    (register sampleDeps
        (register sampleDeps World.empty ⟨"a@x.com", "A", "pw1"⟩ "r1").world
        ⟨"a@x.com", "B", "pw2"⟩ "r2").thrown
      = some (CustomError.BadRequestError "Email already exists") ∧
    countEmail (register sampleDeps
        (register sampleDeps World.empty ⟨"a@x.com", "A", "pw1"⟩ "r1").world
        ⟨"a@x.com", "B", "pw2"⟩ "r2").world.users "a@x.com" = 1 :=
  have h := register_same_email_twice sampleDeps World.empty ⟨"a@x.com", "A", "pw1"⟩
    ⟨"a@x.com", "B", "pw2"⟩ "r1" "r2" rfl
  ⟨by decide, by rw [h.2.1], h.2.2 (by decide)⟩

/-- C2: in every sequence of successful register calls that starts on a store
without users, the first call creates its user with role "admin" and every
later call with role "user"; and whenever register creates a user, the role it
writes is "admin" exactly when the user count seen before the write is 0. -/
theorem register_roles (deps : Deps) (images : List ImageRecord)
    (calls : List (RegisterBody × String))
    (hok : ∀ o ∈ registerAll deps { users := [], images := images } calls, o.thrown = none) :
    (∀ (i : Nat) (o : Outcome),
      (registerAll deps { users := [], images := images } calls)[i]? = some o →
        ∃ doc, o.effects = [Effect.userCreate doc] ∧
          doc.role = (if i = 0 then "admin" else "user")) ∧
    (∀ (w : World) (body : RegisterBody) (hex : String) (doc : UserDoc),
      Effect.userCreate doc ∈ (register deps w body hex).effects →
        (doc.role = "admin" ↔ User.countDocuments w.users = 0) ∧
        (doc.role = "user" ↔ User.countDocuments w.users ≠ 0)) := by
  constructor
  · intro i o h
    obtain ⟨doc, hd, hr⟩ := registerAll_roles deps calls _ hok i o h
    exact ⟨doc, hd, by simpa using hr⟩
  · intro w body hex doc hmem
    cases hf : User.findOne w.users body.email with
    | some u =>
      rw [register_of_found deps w body hex u hf] at hmem
      simp [Outcome.threw] at hmem
    | none =>
      rw [register_of_absent deps w body hex hf] at hmem
      simp only [List.mem_singleton, Effect.userCreate.injEq] at hmem
      subst hmem
      simp only [User.countDocuments]
      by_cases hz : w.users.length = 0
      · simp [hz]
      · simp [hz]

/-- Witness of C2: two registrations on the empty store. -/
theorem register_roles_witness :
    (∀ o ∈ registerAll sampleDeps { users := [], images := [] }
        [(⟨"a@x.com", "A", "pw1"⟩, "r1"), (⟨"b@x.com", "B", "pw2"⟩, "r2")], o.thrown = none) ∧
    (∀ (i : Nat) (o : Outcome),
      (registerAll sampleDeps { users := [], images := [] }
        [(⟨"a@x.com", "A", "pw1"⟩, "r1"), (⟨"b@x.com", "B", "pw2"⟩, "r2")])[i]? = some o →
        ∃ doc, o.effects = [Effect.userCreate doc] ∧
          doc.role = (if i = 0 then "admin" else "user")) :=
  ⟨by decide,
   (register_roles sampleDeps []
      [(⟨"a@x.com", "A", "pw1"⟩, "r1"), (⟨"b@x.com", "B", "pw2"⟩, "r2")] (by decide)).1⟩

/-- C3: login with an email unknown to the store and login with a known email
whose password comparison fails throw the same error, AuthenticationError
"Invalid Credentials"; both set no cookie, send no status and no body, and
issue no token. -/
theorem login_failures_indistinguishable (deps : Deps) (env₁ env₂ : Env) (w₁ w₂ : World)
    (unknown wrong : LoginBody) (now₁ now₂ : Nat) (user : UserRecord)
    (hnone : User.findOne w₁.users unknown.email = none)
    (hsome : User.findOne w₂.users wrong.email = some user)
    (hbad : deps.comparePassword user wrong.password = false) :
    (login deps env₁ w₁ unknown now₁).thrown = (login deps env₂ w₂ wrong now₂).thrown ∧
    (login deps env₁ w₁ unknown now₁).thrown =
      some (CustomError.AuthenticationError "Invalid Credentials") ∧
    (login deps env₁ w₁ unknown now₁).res = Res.empty ∧
    (login deps env₂ w₂ wrong now₂).res = Res.empty ∧
    (login deps env₁ w₁ unknown now₁).res.cookies = [] ∧
    (login deps env₂ w₂ wrong now₂).res.cookies = [] ∧
    (login deps env₁ w₁ unknown now₁).res.body = none ∧
    (login deps env₂ w₂ wrong now₂).res.body = none ∧
    (login deps env₁ w₁ unknown now₁).effects = [] ∧
    (login deps env₂ w₂ wrong now₂).effects = [] := by
  simp [login, hnone, hsome, hbad, Res.empty]

/-- Witness of C3: an unknown email against a wrong password for a known one. -/
theorem login_failures_indistinguishable_witness :
    (login sampleDeps ⟨some "s", none⟩
        (register sampleDeps World.empty ⟨"a@x.com", "A", "pw1"⟩ "r1").world
        ⟨"b@x.com", "pw1"⟩ 5).thrown =
    (login sampleDeps ⟨some "s", none⟩
        (register sampleDeps World.empty ⟨"a@x.com", "A", "pw1"⟩ "r1").world
        ⟨"a@x.com", "wrong"⟩ 6).thrown :=
  (login_failures_indistinguishable sampleDeps ⟨some "s", none⟩ ⟨some "s", none⟩
    (register sampleDeps World.empty ⟨"a@x.com", "A", "pw1"⟩ "r1").world
    (register sampleDeps World.empty ⟨"a@x.com", "A", "pw1"⟩ "r1").world
    ⟨"b@x.com", "pw1"⟩ ⟨"a@x.com", "wrong"⟩ 5 6
    ⟨0, "A", "a@x.com", "#pw1", "admin", "r1"⟩ (by decide) (by decide) (by decide)).1

/-- C5 fails as stated: with JWT_SECRET not set, a login that finds the user
and whose password comparison succeeds throws the Error of jwt.sign; it sets
no cookie and sends neither status nor body. -/
theorem login_unset_secret_sets_no_cookie :
    User.findOne (register sampleDeps World.empty ⟨"a@x.com", "A", "pw1"⟩ "r1").world.users
      "a@x.com" = some ⟨0, "A", "a@x.com", "#pw1", "admin", "r1"⟩ ∧
    sampleDeps.comparePassword ⟨0, "A", "a@x.com", "#pw1", "admin", "r1"⟩ "pw1" = true ∧
    (login sampleDeps ⟨none, some "production"⟩
      (register sampleDeps World.empty ⟨"a@x.com", "A", "pw1"⟩ "r1").world
      ⟨"a@x.com", "pw1"⟩ 5).thrown =
      some (CustomError.Error "secretOrPrivateKey must have a value") ∧
    (login sampleDeps ⟨none, some "production"⟩
      (register sampleDeps World.empty ⟨"a@x.com", "A", "pw1"⟩ "r1").world
      ⟨"a@x.com", "pw1"⟩ 5).res.cookies = [] ∧
    (login sampleDeps ⟨none, some "production"⟩
      (register sampleDeps World.empty ⟨"a@x.com", "A", "pw1"⟩ "r1").world
      ⟨"a@x.com", "pw1"⟩ 5).res.statusCode ≠ some 200 ∧
    (login sampleDeps ⟨none, some "production"⟩
      (register sampleDeps World.empty ⟨"a@x.com", "A", "pw1"⟩ "r1").world
      ⟨"a@x.com", "pw1"⟩ 5).res.body = none := by
  decide

/-- C5 (amended): a login that finds the user, whose password comparison
succeeds and whose jwt.sign call over the payload holding the user projection,
with JWT_SECRET and expiry "30d", returns a token, sets exactly one cookie,
named "token", whose value is that token, with httpOnly true, secure true
exactly when NODE_ENV is "production", and expiry now + 86400000 ms; it then
answers status 200 with that same projection as body.  The secret is then set
and not empty. -/
theorem login_success_cookie (deps : Deps) (env : Env) (w : World) (body : LoginBody)
    (now : Nat) (user : UserRecord) (token : String)
    (hfound : User.findOne w.users body.email = some user)
    (hpw : deps.comparePassword user body.password = true)
    (hsign : jwt.sign deps { user := deps.createTokenUser user } env.JWT_SECRET "30d" =
      Except.ok token) :
    (∃ cookie,
      (login deps env w body now).res.cookies = [cookie] ∧
      cookie.name = "token" ∧
      cookie.value = token ∧
      (login deps env w body now).effects =
        [Effect.jwtSign { user := deps.createTokenUser user } env.JWT_SECRET "30d"] ∧
      cookie.options.httpOnly = true ∧
      (cookie.options.secure = true ↔ env.NODE_ENV = some "production") ∧
      cookie.options.expires = now + 86400000 ∧
      (login deps env w body now).thrown = none ∧
      (login deps env w body now).res.statusCode = some 200 ∧
      (login deps env w body now).res.body = some (Body.user (deps.createTokenUser user)) ∧
      (login deps env w body now).res.cleared = []) ∧
    (∃ secret, env.JWT_SECRET = some secret ∧ secret ≠ "" ∧
      deps.jwtSign { user := deps.createTokenUser user } secret "30d" = Except.ok token) := by
  constructor
  · simp [login, hfound, hpw, hsign, Res.empty, oneDay, StatusCodes.OK]
  · cases hsecret : env.JWT_SECRET with
    | none => rw [hsecret] at hsign; simp [jwt.sign] at hsign
    | some secret =>
      rw [hsecret] at hsign
      by_cases hempty : secret = ""
      · simp [jwt.sign, hempty] at hsign
      · refine ⟨secret, rfl, hempty, ?_⟩
        simpa [jwt.sign, hempty] using hsign

/-- Witness of C5 (amended): the first user logs in with the right password
under a secret that is set. -/
theorem login_success_cookie_witness :
    ∃ cookie,
      (login sampleDeps ⟨some "s", some "production"⟩
        (register sampleDeps World.empty ⟨"a@x.com", "A", "pw1"⟩ "r1").world
        ⟨"a@x.com", "pw1"⟩ 5).res.cookies = [cookie] ∧ cookie.name = "token" ∧
      cookie.value = "A.s.30d" :=
  have ⟨⟨cookie, h₁, h₂, h₃, _⟩, _⟩ :=
    login_success_cookie sampleDeps ⟨some "s", some "production"⟩
      (register sampleDeps World.empty ⟨"a@x.com", "A", "pw1"⟩ "r1").world
      ⟨"a@x.com", "pw1"⟩ 5 ⟨0, "A", "a@x.com", "#pw1", "admin", "r1"⟩ "A.s.30d"
      (by decide) (by decide) rfl
  ⟨cookie, h₁, h₂, h₃⟩

/-- C9: a register call for an email absent from the store performs exactly one
store write, a single User.create with the given name and email, the computed
role and the freshly drawn verification token; it signs no token, sets no
cookie, throws nothing, and answers status 201 with body msg "Success!". -/
theorem register_success_effects (deps : Deps) (w : World) (body : RegisterBody) (hex : String)
    (habsent : User.findOne w.users body.email = none) :
    (register deps w body hex).effects =
      [Effect.userCreate
        { name := body.name, email := body.email, password := body.password,
          role := if User.countDocuments w.users = 0 then "admin" else "user",
          verificationToken := hex }] ∧
    (register deps w body hex).world.users.length = w.users.length + 1 ∧
    (register deps w body hex).world.images = w.images ∧
    (∀ payload secret ttl,
      Effect.jwtSign payload secret ttl ∉ (register deps w body hex).effects) ∧
    (register deps w body hex).res.cookies = [] ∧
    (register deps w body hex).thrown = none ∧
    (register deps w body hex).res.statusCode = some 201 ∧
    (register deps w body hex).res.body = some (Body.msg "Success!") := by
  rw [register_of_absent deps w body hex habsent]
  simp [User.countDocuments]

/-- Witness of C9: the first registration on the empty store. -/
theorem register_success_effects_witness :
    (register sampleDeps World.empty ⟨"a@x.com", "A", "pw1"⟩ "r1").res.statusCode = some 201 :=
  (register_success_effects sampleDeps World.empty ⟨"a@x.com", "A", "pw1"⟩ "r1"
    (by decide)).2.2.2.2.2.2.1

/-! ## Claim on checkLoginStatus -/

/-- C4 (as the code behaves): for the cookies set by a successful login, sent
back under the names login gave them, checkLoginStatus finds the token under
"token" but reads "accessToken", finds nothing there and answers isLoggedIn
false, whatever jwt.verify would have said of the token. -/
theorem checkLoginStatus_after_login (deps : Deps) (env : Env) (w : World) (body : LoginBody)
    (now : Nat) (user : UserRecord) (token : String)
    (hfound : User.findOne w.users body.email = some user)
    (hpw : deps.comparePassword user body.password = true)
    (hsign : jwt.sign deps { user := deps.createTokenUser user } env.JWT_SECRET "30d" =
      Except.ok token) :
    (login deps env w body now).thrown = none ∧
    ((login deps env w body now).res.cookies.map (fun c => (c.name, c.value))).lookup "token" =
      some token ∧
    ((login deps env w body now).res.cookies.map
      (fun c => (c.name, c.value))).lookup "accessToken" = none ∧
    (checkLoginStatus deps env w
      ((login deps env w body now).res.cookies.map (fun c => (c.name, c.value)))).res.body =
      some (Body.isLoggedIn false) := by
  simp [login, hfound, hpw, hsign, Res.empty, checkLoginStatus, List.lookup]

/-- Witness of C4: the token of the sample login is one that the sample
verifier accepts, and checkLoginStatus still answers false. -/
theorem checkLoginStatus_after_login_witness :
    sampleDeps.jwtVerify "A.s.30d" (some "s") ≠ none ∧
    (checkLoginStatus sampleDeps ⟨some "s", none⟩
      (register sampleDeps World.empty ⟨"a@x.com", "A", "pw1"⟩ "r1").world
      ((login sampleDeps ⟨some "s", none⟩
        (register sampleDeps World.empty ⟨"a@x.com", "A", "pw1"⟩ "r1").world
        ⟨"a@x.com", "pw1"⟩ 5).res.cookies.map (fun c => (c.name, c.value)))).res.body =
      some (Body.isLoggedIn false) :=
  ⟨by decide,
   (checkLoginStatus_after_login sampleDeps ⟨some "s", none⟩
      (register sampleDeps World.empty ⟨"a@x.com", "A", "pw1"⟩ "r1").world
      ⟨"a@x.com", "pw1"⟩ 5 ⟨0, "A", "a@x.com", "#pw1", "admin", "r1"⟩ "A.s.30d"
      (by decide) (by decide) rfl).2.2.2⟩

/-! ## Lemmas on the upload pipeline -/

theorem fileFilter_reject (file : IncomingFile) (h : startsWith file.mimetype "image/" = false) :
    upload.fileFilter file = (some (UploadError.Error "Only image files are allowed!"), false) := by
  simp [upload.fileFilter, h]

theorem fileFilter_accept (file : IncomingFile) (h : startsWith file.mimetype "image/" = true) :
    upload.fileFilter file = (none, true) := by
  simp [upload.fileFilter, h]

theorem startsWith_iff (s p : String) : startsWith s p = true ↔ ∃ rest : String, s = p ++ rest := by
  unfold startsWith
  constructor
  · intro h
    have h2 : ∃ t, p.toList ++ t = s.toList := by
      simpa [ List.IsPrefix] using h
    obtain ⟨t, ht⟩ := h2
    refine ⟨String.mk t, ?_⟩
    apply String.ext
    simpa using ht.symm
  · rintro ⟨rest, rfl⟩
    simp

theorem handleParts_error_of_non_image (fieldname : String) (clock : Nat → Nat)
    (parts : List IncomingFile) :
    ∀ (filesLeft i : Nat), (∃ f ∈ parts, startsWith f.mimetype "image/" = false) →
      ∃ err, upload.handleParts fieldname clock filesLeft i parts = Except.error err := by
  induction parts with
  | nil => intro _ _ h; simp at h
  | cons file rest ih =>
    intro filesLeft i h
    unfold upload.handleParts
    by_cases hlimit : (file.fieldname != fieldname || filesLeft == 0) = true
    · rw [if_pos hlimit]; exact ⟨_, rfl⟩
    · rw [if_neg hlimit]
      cases hsw : startsWith file.mimetype "image/" with
      | false => rw [fileFilter_reject file hsw]; exact ⟨_, rfl⟩
      | true =>
        rw [fileFilter_accept file hsw]
        have hrest : ∃ f ∈ rest, startsWith f.mimetype "image/" = false := by
          obtain ⟨f, hf, hfm⟩ := h
          rcases List.mem_cons.1 hf with rfl | hmem
          · rw [hsw] at hfm; exact absurd hfm (by decide)
          · exact ⟨f, hmem, hfm⟩
        obtain ⟨err, herr⟩ := ih (filesLeft - 1) (i + 1) hrest
        simp only [herr]
        exact ⟨_, rfl⟩

theorem uploadImages_of_error (w : World) (req : UploadRequest) (run : UploadRun)
    (err : UploadError)
    (h : upload.array "images" 10 run.fileClock req.parts = Except.error err) :
    uploadImages w req run =
      { thrown := none,
        res := { statusCode := some 500, body := some (Body.uploadError err),
                 cookies := [], cleared := [] },
        effects := [], world := w } := by
  unfold uploadImages
  rw [h]
  cases err <;> simp [Res.empty]

theorem uploadImages_of_insert_failure (w : World) (req : UploadRequest) (run : UploadRun)
    (files : List UploadedFile)
    (h : upload.array "images" 10 run.fileClock req.parts = Except.ok files)
    (hins : Image.insertMany run.insertFault run.insertAt w.images
      (files.map (imageOfFile req)) = none) :
    uploadImages w req run =
      { thrown := none,
        res := { statusCode := some 500,
                 body := some (Body.error "Error saving images to the database"),
                 cookies := [], cleared := [] },
        effects := [Effect.imageInsertMany (files.map (imageOfFile req))], world := w } := by
  unfold uploadImages
  rw [h]
  simp [hins, Res.empty]

theorem uploadImages_of_insert_success (w : World) (req : UploadRequest) (run : UploadRun)
    (files : List UploadedFile) (stored : List ImageRecord)
    (h : upload.array "images" 10 run.fileClock req.parts = Except.ok files)
    (hins : Image.insertMany run.insertFault run.insertAt w.images
      (files.map (imageOfFile req)) = some stored) :
    uploadImages w req run =
      { thrown := none,
        res := { statusCode := some 200,
                 body := some (Body.files files (((run.finish : Rat) - (run.start : Rat)) / 1000)),
                 cookies := [], cleared := [] },
        effects := [Effect.imageInsertMany (files.map (imageOfFile req))],
        world := { w with images := stored } } := by
  unfold uploadImages
  rw [h]
  simp [hins, Res.empty]

theorem startsWith_eq_false_iff (s p : String) :
    startsWith s p = false ↔ ¬ ∃ rest : String, s = p ++ rest := by
  rw [← startsWith_iff]
  simp

/-- A batch of nine images and one text file, all under the field `images`. -/
def nineImagesOneText : List IncomingFile :=
  (List.range 9).map (fun i =>
    { fieldname := "images", originalname := "pic.png", mimetype := "image/png", size := i })
  ++ [{ fieldname := "images", originalname := "notes.txt", mimetype := "text/plain",
        size := 12 }]

/-- A run whose clocks all read the index and whose store accepts the insert. -/
def sampleRun : UploadRun :=
  { start := 0, fileClock := fun i => i, insertAt := 7, insertFault := false, finish := 9 }

/-- A status code of the 4xx class. -/
def isClientError (code : Nat) : Prop := 400 ≤ code ∧ code < 500

/-- A status code of the 5xx class. -/
def isServerError (code : Nat) : Prop := 500 ≤ code ∧ code < 600

/-! ## Claims on the upload pipeline -/

/-- C6: when some file of the batch has a mimetype that does not start with
"image/", the file filter rejects each such file with the error "Only image
files are allowed!", and uploadImages reports the upload as failed (status 500
with the error as body) without calling Image.insertMany, leaving the image
store as it was; and the filter accepts a file exactly when its mimetype
starts with "image/". -/
theorem upload_non_image_rejects_batch (w : World) (req : UploadRequest) (run : UploadRun)
    (hbad : ∃ f ∈ req.parts, ¬ ∃ rest : String, f.mimetype = "image/" ++ rest) :
    (∀ f ∈ req.parts, (¬ ∃ rest : String, f.mimetype = "image/" ++ rest) →
      upload.fileFilter f =
        (some (UploadError.Error "Only image files are allowed!"), false)) ∧
    (uploadImages w req run).res.statusCode = some 500 ∧
    (∃ err, (uploadImages w req run).res.body = some (Body.uploadError err)) ∧
    (∀ docs, Effect.imageInsertMany docs ∉ (uploadImages w req run).effects) ∧
    (uploadImages w req run).world = w ∧
    (∀ file : IncomingFile,
      upload.fileFilter file = (none, true) ↔
        ∃ rest : String, file.mimetype = "image/" ++ rest) := by
  have herr : ∃ err, upload.array "images" 10 run.fileClock req.parts = Except.error err := by
    obtain ⟨f, hf, hfm⟩ := hbad
    exact handleParts_error_of_non_image "images" run.fileClock req.parts 10 0
      ⟨f, hf, (startsWith_eq_false_iff _ _).2 hfm⟩
  obtain ⟨err, herr⟩ := herr
  rw [uploadImages_of_error w req run err herr]
  refine ⟨?_, rfl, ⟨err, rfl⟩, by simp, rfl, ?_⟩
  · intro f _ hfm
    exact fileFilter_reject f ((startsWith_eq_false_iff _ _).2 hfm)
  · intro file
    rw [← startsWith_iff]
    cases hsw : startsWith file.mimetype "image/" with
    | false => simp [fileFilter_reject file hsw]
    | true => simp [fileFilter_accept file hsw]

/-- Witness of C6: one text file among nine images. -/
theorem upload_non_image_rejects_batch_witness :
    (uploadImages World.empty ⟨"http", "localhost:3000", nineImagesOneText⟩
      sampleRun).res.statusCode = some 500 ∧
    (uploadImages World.empty ⟨"http", "localhost:3000", nineImagesOneText⟩
      sampleRun).world = World.empty :=
  have h := upload_non_image_rejects_batch World.empty
    ⟨"http", "localhost:3000", nineImagesOneText⟩ sampleRun
    ⟨{ fieldname := "images", originalname := "notes.txt", mimetype := "text/plain",
       size := 12 }, by decide, (startsWith_eq_false_iff _ _).1 (by decide)⟩
  ⟨h.2.1, h.2.2.2.2.1⟩

/-- C7 fails as stated: a batch of one text file is rejected by the file filter
and uploadImages answers 500, which is no client-error status. -/
theorem upload_rejection_status_not_4xx :
    upload.fileFilter ⟨"images", "notes.txt", "text/plain", 12⟩ =
      (some (UploadError.Error "Only image files are allowed!"), false) ∧
    (uploadImages World.empty
      ⟨"http", "localhost:3000", [⟨"images", "notes.txt", "text/plain", 12⟩]⟩
      sampleRun).res.statusCode = some 500 ∧
    ¬ ∃ code, (uploadImages World.empty
      ⟨"http", "localhost:3000", [⟨"images", "notes.txt", "text/plain", 12⟩]⟩
      sampleRun).res.statusCode = some code ∧ isClientError code := by
  have hstatus : (uploadImages World.empty
      ⟨"http", "localhost:3000", [⟨"images", "notes.txt", "text/plain", 12⟩]⟩
      sampleRun).res.statusCode = some 500 := by decide
  refine ⟨by decide, hstatus, ?_⟩
  rintro ⟨code, hcode, hlo, hhi⟩
  rw [hstatus] at hcode
  cases hcode
  omega

/-- C7 (amended): when the upload is rejected with the error of the file
filter, uploadImages answers status 500, a server-error status, handing that
error to res.json; and when the batch is accepted but the metadata insert
fails, it answers status 500 as well, with the body error "Error saving images
to the database". -/
theorem upload_failures_status_500 (w : World) (req : UploadRequest) (run : UploadRun) :
    (upload.array "images" 10 run.fileClock req.parts =
        Except.error (UploadError.Error "Only image files are allowed!") →
      (uploadImages w req run).res.statusCode = some 500 ∧
      isServerError 500 ∧
      (uploadImages w req run).res.body =
        some (Body.uploadError (UploadError.Error "Only image files are allowed!"))) ∧
    (∀ files, upload.array "images" 10 run.fileClock req.parts = Except.ok files →
      Image.insertMany run.insertFault run.insertAt w.images
        (files.map (imageOfFile req)) = none →
      (uploadImages w req run).res.statusCode = some 500 ∧
      isServerError 500 ∧
      (uploadImages w req run).res.body =
        some (Body.error "Error saving images to the database")) := by
  constructor
  · intro h
    rw [uploadImages_of_error w req run _ h]
    exact ⟨rfl, by unfold isServerError; omega, rfl⟩
  · intro files h hins
    rw [uploadImages_of_insert_failure w req run files h hins]
    exact ⟨rfl, by unfold isServerError; omega, rfl⟩

/-- Witness of C7 (amended): a text file is rejected with status 500, and an
image whose insert fails is answered with status 500. -/
theorem upload_failures_status_500_witness :
    (uploadImages World.empty
      ⟨"http", "localhost:3000", [⟨"images", "notes.txt", "text/plain", 12⟩]⟩
      sampleRun).res.statusCode = some 500 ∧
    (uploadImages World.empty
      ⟨"http", "localhost:3000", [⟨"images", "pic.png", "image/png", 12⟩]⟩
      { sampleRun with insertFault := true }).res.statusCode = some 500 :=
  ⟨((upload_failures_status_500 World.empty
      ⟨"http", "localhost:3000", [⟨"images", "notes.txt", "text/plain", 12⟩]⟩
      sampleRun).1 rfl).1,
   ((upload_failures_status_500 World.empty
      ⟨"http", "localhost:3000", [⟨"images", "pic.png", "image/png", 12⟩]⟩
      { sampleRun with insertFault := true }).2
        [storage.handleFile 0 ⟨"images", "pic.png", "image/png", 12⟩]
        rfl (by decide)).1⟩

/-- C10: for every batch accepted by the upload middleware as req.files (the
empty batch included), uploadImages passes to Image.insertMany one record per
file, in the order of req.files, the record at index i holding the filename,
size and mimetype of the file at index i and the url protocol ++ "://" ++ host
++ "/uploads/" ++ filename, a path under the static mount of the upload
directory; if the insert succeeds the answer is status 200 with body files
req.files and the processing time, and if it fails the answer is status 500,
not 200. -/
theorem upload_builds_one_record_per_file (w : World) (req : UploadRequest) (run : UploadRun)
    (files : List UploadedFile)
    (haccepted : upload.array "images" 10 run.fileClock req.parts = Except.ok files) :
    ∃ docs,
      (uploadImages w req run).effects = [Effect.imageInsertMany docs] ∧
      docs.length = files.length ∧
      (∀ (i : Nat) (file : UploadedFile), files[i]? = some file →
        ∃ doc, docs[i]? = some doc ∧
          doc.filename = file.filename ∧ doc.size = file.size ∧
          doc.mimetype = file.mimetype ∧
          doc.url = req.protocol ++ "://" ++ req.host ++ "/uploads/" ++ file.filename ∧
          doc.url = req.protocol ++ "://" ++ req.host ++ (staticMount ++ "/" ++ file.filename)) ∧
      (∀ stored, Image.insertMany run.insertFault run.insertAt w.images docs = some stored →
        (uploadImages w req run).res.statusCode = some 200 ∧
        (uploadImages w req run).res.body =
          some (Body.files files (((run.finish : Rat) - (run.start : Rat)) / 1000)) ∧
        (uploadImages w req run).world.images = stored) ∧
      (Image.insertMany run.insertFault run.insertAt w.images docs = none →
        (uploadImages w req run).res.statusCode = some 500 ∧
        (uploadImages w req run).res.statusCode ≠ some 200) := by
  refine ⟨files.map (imageOfFile req), ?_, by simp, ?_, ?_, ?_⟩
  · cases hins : Image.insertMany run.insertFault run.insertAt w.images
        (files.map (imageOfFile req)) with
    | none => rw [uploadImages_of_insert_failure w req run files haccepted hins]
    | some stored => rw [uploadImages_of_insert_success w req run files stored haccepted hins]
  · intro i file hfile
    refine ⟨imageOfFile req file, by simp [hfile], rfl, rfl, rfl, rfl, ?_⟩
    have hmount : staticMount ++ "/" = "/uploads/" := by decide
    simp only [imageOfFile]
    rw [hmount, ← String.append_assoc]
  · intro stored hins
    rw [uploadImages_of_insert_success w req run files stored haccepted hins]
    exact ⟨rfl, rfl, rfl⟩
  · intro hins
    rw [uploadImages_of_insert_failure w req run files haccepted hins]
    exact ⟨rfl, by simp⟩

/-- Witness of C10: a batch of two images, and the empty batch. -/
theorem upload_builds_one_record_per_file_witness :
    (∃ docs,
      (uploadImages World.empty
        ⟨"http", "localhost:3000",
          [⟨"images", "a.png", "image/png", 3⟩, ⟨"images", "b.gif", "image/gif", 4⟩]⟩
        sampleRun).effects = [Effect.imageInsertMany docs] ∧ docs.length = 2) ∧
    (∃ docs,
      (uploadImages World.empty ⟨"http", "localhost:3000", []⟩ sampleRun).effects =
        [Effect.imageInsertMany docs] ∧ docs.length = 0) :=
  have ⟨docs, h₁, h₂, _⟩ := upload_builds_one_record_per_file World.empty
    ⟨"http", "localhost:3000",
      [⟨"images", "a.png", "image/png", 3⟩, ⟨"images", "b.gif", "image/gif", 4⟩]⟩
    sampleRun
    [storage.handleFile 0 ⟨"images", "a.png", "image/png", 3⟩,
     storage.handleFile 1 ⟨"images", "b.gif", "image/gif", 4⟩] rfl
  have ⟨docs0, h₃, h₄, _⟩ := upload_builds_one_record_per_file World.empty
    ⟨"http", "localhost:3000", []⟩ sampleRun [] rfl
  ⟨⟨docs, h₁, h₂⟩, ⟨docs0, h₃, h₄⟩⟩

/-! ## Lemmas on the query flow -/

instance : IsTotal ImageRecord createdAtDesc := ⟨fun a b => Nat.le_total b.createdAt a.createdAt⟩

instance : IsTrans ImageRecord createdAtDesc :=
  ⟨fun _ _ _ hab hbc => Nat.le_trans hbc hab⟩

theorem orderedInsert_newest (x : ImageRecord) (l : List ImageRecord)
    (h : ∀ y ∈ l, y.createdAt < x.createdAt) :
    List.orderedInsert createdAtDesc x l = x :: l := by
  cases l with
  | nil => rfl
  | cons y rest =>
    have hy : createdAtDesc x y := Nat.le_of_lt (h y (by simp))
    simp [List.orderedInsert, hy]

theorem orderedInsert_older (a x : ImageRecord) (l : List ImageRecord)
    (h : a.createdAt < x.createdAt) :
    List.orderedInsert createdAtDesc a (x :: l) = x :: List.orderedInsert createdAtDesc a l := by
  have hn : ¬ createdAtDesc a x := by unfold createdAtDesc; omega
  simp [List.orderedInsert, hn]

theorem sortCreatedAtDesc_insert_newest (x : ImageRecord) (l₁ l₂ : List ImageRecord)
    (h : ∀ y ∈ l₁ ++ l₂, y.createdAt < x.createdAt) :
    sortCreatedAtDesc (l₁ ++ x :: l₂) = x :: sortCreatedAtDesc (l₁ ++ l₂) := by
  induction l₁ with
  | nil =>
    simp only [List.nil_append, sortCreatedAtDesc, List.insertionSort] at h ⊢
    apply orderedInsert_newest
    intro y hy
    exact h y ((List.perm_insertionSort createdAtDesc l₂).mem_iff.1 hy)
  | cons a rest ih =>
    have hrest : ∀ y ∈ rest ++ l₂, y.createdAt < x.createdAt :=
      fun y hy => h y (by simp only [List.cons_append, List.mem_cons]; exact Or.inr hy)
    have ha : a.createdAt < x.createdAt := h a (by simp)
    have ih0 := ih hrest
    simp only [sortCreatedAtDesc] at ih0
    show List.orderedInsert createdAtDesc a (List.insertionSort createdAtDesc (rest ++ x :: l₂))
      = x :: List.orderedInsert createdAtDesc a (List.insertionSort createdAtDesc (rest ++ l₂))
    rw [ih0]
    exact orderedInsert_older a x _ ha

/-! ## Claim on the query flow -/

/-- C8: when the query succeeds, getAllImages answers status 200 with the urls
of the stored image records, one per record and nothing else, in an order of
descending createdAt; and once a record created strictly later than every
stored record is inserted, its url comes first and the rest of the list is the
list returned before, in the same order. -/
theorem getAllImages_newest_first (w : World) :
    (getAllImages w false).res.statusCode = some 200 ∧
    (∃ sorted : List ImageRecord,
      (getAllImages w false).res.body = some (Body.urls (sorted.map (fun r => r.url))) ∧
      sorted.Perm w.images ∧
      sorted.Pairwise (fun a b => b.createdAt ≤ a.createdAt)) ∧
    (∀ (before after : List ImageRecord) (r : ImageRecord) (urls : List String),
      w.images = before ++ after →
      (∀ y ∈ w.images, y.createdAt < r.createdAt) →
      (getAllImages w false).res.body = some (Body.urls urls) →
      (getAllImages { w with images := before ++ r :: after } false).res.body =
        some (Body.urls (r.url :: urls))) := by
  refine ⟨by simp [getAllImages, Image.find, Res.empty], ?_, ?_⟩
  · refine ⟨sortCreatedAtDesc w.images, by simp [getAllImages, Image.find, Res.empty],
      List.perm_insertionSort createdAtDesc w.images, ?_⟩
    exact List.sorted_insertionSort createdAtDesc w.images
  · intro before after r urls himg hnew hbody
    rw [himg] at hnew
    have hsort := sortCreatedAtDesc_insert_newest r before after hnew
    simp only [getAllImages, Image.find, Res.empty, Bool.false_eq_true, if_false,
      Option.some.injEq, Body.urls.injEq] at hbody ⊢
    rw [hsort, ← hbody, himg]
    rfl

/-- Witness of C8: a record created at 9 joins records created at 5, 7 and 5. -/
theorem getAllImages_newest_first_witness :
    (getAllImages
      { users := [],
        images := [⟨"a", "ua", 1, "image/png", 5⟩, ⟨"d", "ud", 1, "image/png", 9⟩,
                   ⟨"b", "ub", 1, "image/png", 7⟩, ⟨"c", "uc", 1, "image/png", 5⟩] }
      false).res.body = some (Body.urls ["ud", "ub", "ua", "uc"]) :=
  (getAllImages_newest_first
      { users := [],
        images := [⟨"a", "ua", 1, "image/png", 5⟩, ⟨"b", "ub", 1, "image/png", 7⟩,
                   ⟨"c", "uc", 1, "image/png", 5⟩] }).2.2
    [⟨"a", "ua", 1, "image/png", 5⟩]
    [⟨"b", "ub", 1, "image/png", 7⟩, ⟨"c", "uc", 1, "image/png", 5⟩]
    ⟨"d", "ud", 1, "image/png", 9⟩ ["ub", "ua", "uc"] rfl (by decide) (by decide)

end UploadBE
